import Mathlib

/-!
Shallow embedding of the session message-synchronization engine of the
`site-ollama` repository (source: `src/App.tsx`, plus the shared type
declarations in `src/unnamed/part_000`, the project's `types.ts`).

The embedding translates the state-manipulating parts of `App.tsx`:
  * the `Message` / `ChatSession` / `UserProfile` data model,
  * the realtime-insert callback (App.tsx lines 66-77), which merges a
    live-feed delivery into the active session's message list, deduplicating
    by message id,
  * the history-fetch continuation (App.tsx lines 49-53), which replaces the
    fetched room's message list with the fetched data,
  * `handleSendMessage` (App.tsx lines 84-129), modelled as a pure function
    of the outcomes of its suspended calls (the remote insert of the user
    message and the generation call), returning the local state together
    with the remote writes it attempts and the generation request it makes,
  * the `useEffect` subscription lifecycle (App.tsx lines 59-82), modelled
    as the event trace produced by React's effect contract for dependency
    list `[activeSessionId]`: run the effect on mount, run the cleanup of
    the previous effect before re-running on a dependency change, run the
    cleanup on unmount.
-/

namespace Chat

/-- Role of a message author: `type Role = 'user' | 'model'`
(src/unnamed/part_000). -/
inductive Role where
  | user
  | model
deriving DecidableEq

/-- The `Message` interface (src/unnamed/part_000): id, role, text,
timestamp, optional image, optional streaming flag, optional author name and
avatar, optional session id. -/
structure Message where
  id : String
  role : Role
  text : String
  timestamp : Int
  image : Option String
  isStreaming : Option Bool
  user_name : Option String
  user_avatar : Option String
  session_id : Option String
deriving DecidableEq

/-- The `ChatSession` interface (src/unnamed/part_000): a room with an agent
personality and an ordered message list. -/
structure ChatSession where
  id : String
  name : String
  avatar : String
  lastMessage : Option String
  personality : String
  messages : List Message
deriving DecidableEq

/-- The `UserProfile` interface (src/unnamed/part_000). -/
structure UserProfile where
  name : String
  avatar : String
deriving DecidableEq

/-- Outcome of merging one live-feed delivery, the spec's `MergeOutcome`. -/
inductive MergeOutcome where
  | inserted
  | duplicateIgnored
deriving DecidableEq

/-- The per-room merge performed by the realtime callback (App.tsx lines
71-72): if some existing message shares the delivered message's id the list
is returned unchanged (`DuplicateIgnored`); otherwise the message is appended
at the tail (`Inserted`). -/
def appendOrMerge (msgs : List Message) (m : Message) :
    List Message × MergeOutcome :=
  if msgs.any (fun x => x.id == m.id) then (msgs, MergeOutcome.duplicateIgnored)
  else (msgs ++ [m], MergeOutcome.inserted)

/-- The update the realtime callback applies to one session (App.tsx lines
68-75): sessions other than the active one are untouched; the active session
gets the delivered message merged by id. -/
def mergeStep (activeId : String) (m : Message) (s : ChatSession) :
    ChatSession :=
  if s.id == activeId then
    if s.messages.any (fun x => x.id == m.id) then s
    else { s with messages := s.messages ++ [m] }
  else s

/-- The whole `setSessions` update of the realtime callback (App.tsx lines
68-75): map `mergeStep` over the session list. -/
def handleRealtimeInsert (sessions : List ChatSession) (activeId : String)
    (m : Message) : List ChatSession :=
  sessions.map (mergeStep activeId m)

/-- The `setSessions` update of the history-fetch continuation (App.tsx
lines 50-52): the session whose id equals the id captured when the fetch was
issued has its message list replaced wholesale by the fetched data; other
sessions are untouched.  Note there is no merge by id and no check against
the currently active session. -/
def applyFetchResult (sessions : List ChatSession) (capturedRoom : String)
    (data : List Message) : List ChatSession :=
  sessions.map (fun s =>
    if s.id == capturedRoom then { s with messages := data } else s)

/-- Read a room's message list out of the session list (the first session
with the given id, as `sessions.find` in App.tsx line 37 would locate it;
an empty list when no session has that id). -/
def roomMessages : List ChatSession → String → List Message
  | [], _ => []
  | s :: rest, rid => if s.id == rid then s.messages else roomMessages rest rid

/-- Ascending-by-timestamp check on a message list. -/
def sortedByTimestamp : List Message → Bool
  | [] => true
  | [_] => true
  | a :: b :: rest =>
      decide (a.timestamp ≤ b.timestamp) && sortedByTimestamp (b :: rest)

/-- JavaScript `l.slice(-n)`: the last `n` elements of `l` (all of `l` when
it is shorter), used at App.tsx line 112 with `n = 5`. -/
def lastN (n : Nat) (l : List α) : List α := l.drop (l.length - n)

theorem mergeStep_id (activeId : String) (m : Message) (s : ChatSession) :
    (mergeStep activeId m s).id = s.id := by
  unfold mergeStep
  split
  · split <;> rfl
  · rfl

theorem mergeStep_idem (activeId : String) (m : Message) (s : ChatSession) :
    mergeStep activeId m (mergeStep activeId m s) = mergeStep activeId m s := by
  unfold mergeStep
  by_cases h : (s.id == activeId) = true
  · simp only [h, if_true]
    by_cases hdup : (s.messages.any (fun x => x.id == m.id)) = true
    · simp [h, hdup]
    · simp [h, hdup, List.any_append]
  · simp [h]

theorem appendOrMerge_inserted_iff (msgs : List Message) (m : Message) :
    (appendOrMerge msgs m).2 = MergeOutcome.inserted ↔
      ∀ x ∈ msgs, x.id ≠ m.id := by
  unfold appendOrMerge
  by_cases h : (msgs.any (fun x => x.id == m.id)) = true
  · simp only [h, if_true]
    simp only [List.any_eq_true, beq_iff_eq] at h
    obtain ⟨x, hx, hid⟩ := h
    constructor
    · intro hcontra
      exact MergeOutcome.noConfusion hcontra
    · intro hall
      exact absurd hid (hall x hx)
  · rw [if_neg h]
    simp only [List.any_eq_true, beq_iff_eq] at h
    push_neg at h
    constructor
    · intro _
      exact h
    · intro _
      rfl

theorem appendOrMerge_dup (msgs : List Message) (m : Message)
    (h : ∃ x ∈ msgs, x.id = m.id) :
    appendOrMerge msgs m = (msgs, MergeOutcome.duplicateIgnored) := by
  unfold appendOrMerge
  have hany : (msgs.any (fun x => x.id == m.id)) = true := by
    simp only [List.any_eq_true, beq_iff_eq]
    exact h
  simp [hany]

theorem appendOrMerge_fresh (msgs : List Message) (m : Message)
    (h : ∀ x ∈ msgs, x.id ≠ m.id) :
    appendOrMerge msgs m = (msgs ++ [m], MergeOutcome.inserted) := by
  unfold appendOrMerge
  have hany : (msgs.any (fun x => x.id == m.id)) = false := by
    simp only [List.any_eq_false, beq_iff_eq]
    exact h
  simp [hany]

theorem appendOrMerge_second_dup (msgs : List Message) (m : Message) :
    appendOrMerge (appendOrMerge msgs m).1 m =
      ((appendOrMerge msgs m).1, MergeOutcome.duplicateIgnored) := by
  by_cases h : (msgs.any (fun x => x.id == m.id)) = true
  · have h1 : appendOrMerge msgs m = (msgs, MergeOutcome.duplicateIgnored) := by
      unfold appendOrMerge
      simp [h]
    rw [h1]
    unfold appendOrMerge
    simp [h]
  · have h1 : appendOrMerge msgs m = (msgs ++ [m], MergeOutcome.inserted) := by
      unfold appendOrMerge
      simp [h]
    rw [h1]
    unfold appendOrMerge
    simp [List.any_append]

theorem appendOrMerge_twice_count (msgs : List Message) (m : Message)
    (h : ∀ x ∈ msgs, x.id ≠ m.id) :
    ((appendOrMerge (appendOrMerge msgs m).1 m).1.countP
      (fun x => x.id == m.id)) = 1 := by
  rw [appendOrMerge_second_dup, appendOrMerge_fresh msgs m h]
  simp only [List.countP_append]
  have h0 : msgs.countP (fun x => x.id == m.id) = 0 := by
    rw [List.countP_eq_zero]
    intro x hx
    simp only [beq_iff_eq]
    exact h x hx
  rw [h0]
  simp [List.countP_cons]

theorem handleRealtimeInsert_idem (sessions : List ChatSession)
    (activeId : String) (m : Message) :
    handleRealtimeInsert (handleRealtimeInsert sessions activeId m) activeId m =
      handleRealtimeInsert sessions activeId m := by
  unfold handleRealtimeInsert
  rw [List.map_map]
  exact List.map_congr_left (fun s _ => mergeStep_idem activeId m s)

/-- C1: delivering a message through the live-feed merge twice yields exactly
one stored copy with the content of a single delivery: the outcome is
`Inserted` exactly when no existing message shares the delivered id,
`DuplicateIgnored` leaves the store unmutated, the second delivery is a
no-op reporting `DuplicateIgnored`, a fresh id ends up stored exactly once
after a double delivery, and the full realtime `setSessions` update is
idempotent. -/
theorem c1_live_feed_merge_idempotent (msgs : List Message) (m : Message)
    (sessions : List ChatSession) (activeId : String) :
    ((appendOrMerge msgs m).2 = MergeOutcome.inserted ↔
      ∀ x ∈ msgs, x.id ≠ m.id) ∧
    ((appendOrMerge msgs m).2 = MergeOutcome.duplicateIgnored →
      (appendOrMerge msgs m).1 = msgs) ∧
    appendOrMerge (appendOrMerge msgs m).1 m =
      ((appendOrMerge msgs m).1, MergeOutcome.duplicateIgnored) ∧
    ((∀ x ∈ msgs, x.id ≠ m.id) →
      ((appendOrMerge (appendOrMerge msgs m).1 m).1.countP
        (fun x => x.id == m.id)) = 1) ∧
    handleRealtimeInsert (handleRealtimeInsert sessions activeId m) activeId m =
      handleRealtimeInsert sessions activeId m := by
  refine ⟨appendOrMerge_inserted_iff msgs m, ?_, appendOrMerge_second_dup msgs m,
    appendOrMerge_twice_count msgs m, handleRealtimeInsert_idem sessions activeId m⟩
  intro hdup
  by_cases h : (msgs.any (fun x => x.id == m.id)) = true
  · unfold appendOrMerge
    simp [h]
  · exfalso
    have hins : (appendOrMerge msgs m).2 = MergeOutcome.inserted := by
      unfold appendOrMerge
      simp [h]
    rw [hins] at hdup
    exact MergeOutcome.noConfusion hdup

/-- Concrete messages and rooms used by witnesses and counterexamples. -/
def mA : Message := ⟨"a", Role.user, "hello", 1, none, none, some "alice", none, some "r1"⟩

def mB : Message := ⟨"b", Role.user, "hi", 2, none, none, some "bob", none, some "r1"⟩

def mC : Message := ⟨"c", Role.user, "hey", 3, none, none, some "carol", none, some "r1"⟩

def roomA : ChatSession := ⟨"r1", "Lounge", "", none, "persona one", []⟩

def roomB : ChatSession := ⟨"r2", "Studio", "", none, "persona two", []⟩

/-- Witness for C1: at a concrete store `[mA]` and fresh message `mC`, the
fresh-id hypothesis holds and a double delivery stores `mC` exactly once. -/
theorem c1_live_feed_merge_idempotent_witness :
    (∀ x ∈ [mA], x.id ≠ mC.id) ∧
    ((appendOrMerge (appendOrMerge [mA] mC).1 mC).1.countP
      (fun x => x.id == mC.id)) = 1 :=
  ⟨by decide, (c1_live_feed_merge_idempotent [mA] mC [roomA] "r1").2.2.2.1 (by decide)⟩

theorem roomMessages_cons (s : ChatSession) (rest : List ChatSession)
    (rid : String) :
    roomMessages (s :: rest) rid =
      if s.id == rid then s.messages else roomMessages rest rid := rfl

theorem applyFetchResult_cons (s : ChatSession) (rest : List ChatSession)
    (rid : String) (data : List Message) :
    applyFetchResult (s :: rest) rid data =
      (if s.id == rid then { s with messages := data } else s) ::
        applyFetchResult rest rid data := rfl

theorem handleRealtimeInsert_cons (s : ChatSession) (rest : List ChatSession)
    (aid : String) (m : Message) :
    handleRealtimeInsert (s :: rest) aid m =
      mergeStep aid m s :: handleRealtimeInsert rest aid m := rfl

theorem any_id_applyFetchResult (sessions : List ChatSession) (rid : String)
    (data : List Message) (q : String) :
    (applyFetchResult sessions rid data).any (fun s => s.id == q) =
      sessions.any (fun s => s.id == q) := by
  induction sessions with
  | nil => rfl
  | cons s rest ih =>
    rw [applyFetchResult_cons, List.any_cons, List.any_cons, ih]
    by_cases hs : (s.id == rid) = true
    · rw [if_pos hs]
    · rw [if_neg hs]

theorem any_id_handleRealtimeInsert (sessions : List ChatSession)
    (aid : String) (m : Message) (q : String) :
    (handleRealtimeInsert sessions aid m).any (fun s => s.id == q) =
      sessions.any (fun s => s.id == q) := by
  induction sessions with
  | nil => rfl
  | cons s rest ih =>
    rw [handleRealtimeInsert_cons, List.any_cons, List.any_cons, ih,
      mergeStep_id]

theorem roomMessages_applyFetchResult (sessions : List ChatSession)
    (rid : String) (data : List Message)
    (h : sessions.any (fun s => s.id == rid) = true) :
    roomMessages (applyFetchResult sessions rid data) rid = data := by
  induction sessions with
  | nil => simp at h
  | cons s rest ih =>
    rw [applyFetchResult_cons]
    by_cases hs : (s.id == rid) = true
    · rw [if_pos hs, roomMessages_cons, if_pos hs]
    · rw [if_neg hs, roomMessages_cons, if_neg hs]
      apply ih
      rw [List.any_cons] at h
      simp only [Bool.or_eq_true] at h
      rcases h with h | h
      · exact absurd h hs
      · exact h

theorem roomMessages_handleRealtimeInsert (sessions : List ChatSession)
    (aid : String) (m : Message)
    (h : sessions.any (fun s => s.id == aid) = true) :
    roomMessages (handleRealtimeInsert sessions aid m) aid =
      (appendOrMerge (roomMessages sessions aid) m).1 := by
  induction sessions with
  | nil => simp at h
  | cons s rest ih =>
    rw [handleRealtimeInsert_cons]
    by_cases hs : (s.id == aid) = true
    · have hid : ((mergeStep aid m s).id == aid) = true := by
        rw [mergeStep_id]
        exact hs
      rw [roomMessages_cons, if_pos hid, roomMessages_cons, if_pos hs]
      unfold mergeStep appendOrMerge
      rw [if_pos hs]
      by_cases hdup : (s.messages.any (fun x => x.id == m.id)) = true
      · simp [hdup]
      · simp [hdup]
    · have hid : ¬ ((mergeStep aid m s).id == aid) = true := by
        rw [mergeStep_id]
        exact hs
      rw [roomMessages_cons, if_neg hid, roomMessages_cons, if_neg hs]
      apply ih
      rw [List.any_cons] at h
      simp only [Bool.or_eq_true] at h
      rcases h with h | h
      · exact absurd h hs
      · exact h

/-- C2 counterexample: with room `r1` initially empty, first merging the live
message `mC` and then applying the fetched history `[mA, mB]` leaves the room
at exactly `[mA, mB]` — the already-merged live message `mC` (whose id is in
neither fetched message) is dropped, because the fetch continuation replaces
the list wholesale instead of merging by id. -/
theorem c2_load_after_merge_drops_live_message :
    mC.id ≠ mA.id ∧ mC.id ≠ mB.id ∧
    roomMessages (applyFetchResult (handleRealtimeInsert [roomA] "r1" mC)
      "r1" [mA, mB]) "r1" = [mA, mB] ∧
    mC ∉ roomMessages (applyFetchResult (handleRealtimeInsert [roomA] "r1" mC)
      "r1" [mA, mB]) "r1" := by decide

/-- C2 amended: when the fetched history `[A, B]` is applied first and the
live message `C` (fresh id) merges afterwards, the room ends at
`[A, B, C]`; but in the opposite order the fetch continuation replaces the
room's list wholesale with `[A, B]`, dropping the already-merged `C`. -/
theorem c2_history_live_merge_amended (sessions : List ChatSession)
    (rid : String) (A B C : Message)
    (hroom : sessions.any (fun s => s.id == rid) = true)
    (hCA : C.id ≠ A.id) (hCB : C.id ≠ B.id) :
    roomMessages (handleRealtimeInsert (applyFetchResult sessions rid [A, B])
      rid C) rid = [A, B, C] ∧
    roomMessages (applyFetchResult (handleRealtimeInsert sessions rid C)
      rid [A, B]) rid = [A, B] := by
  constructor
  · have hroom2 :
        (applyFetchResult sessions rid [A, B]).any (fun s => s.id == rid) =
          true := by
      rw [any_id_applyFetchResult]
      exact hroom
    rw [roomMessages_handleRealtimeInsert _ _ _ hroom2,
      roomMessages_applyFetchResult _ _ _ hroom]
    have hfresh : ∀ x ∈ [A, B], x.id ≠ C.id := by
      intro x hx
      rcases List.mem_pair.mp hx with hxa | hxb
      · rw [hxa]
        exact fun hc => hCA hc.symm
      · rw [hxb]
        exact fun hc => hCB hc.symm
    rw [appendOrMerge_fresh _ _ hfresh]
    rfl
  · have hroom3 :
        (handleRealtimeInsert sessions rid C).any (fun s => s.id == rid) =
          true := by
      rw [any_id_handleRealtimeInsert]
      exact hroom
    exact roomMessages_applyFetchResult _ _ _ hroom3

/-- Witness for C2's amended theorem at the concrete room `r1` with fetched
history `[mA, mB]` and live message `mC`. -/
theorem c2_history_live_merge_amended_witness :
    roomMessages (handleRealtimeInsert (applyFetchResult [roomA] "r1"
      [mA, mB]) "r1" mC) "r1" = [mA, mB, mC] ∧
    roomMessages (applyFetchResult (handleRealtimeInsert [roomA] "r1" mC)
      "r1" [mA, mB]) "r1" = [mA, mB] :=
  c2_history_live_merge_amended [roomA] "r1" mA mB mC (by decide) (by decide)
    (by decide)

theorem sortedByTimestamp_tail (a : Message) (rest : List Message)
    (h : sortedByTimestamp (a :: rest) = true) :
    sortedByTimestamp rest = true := by
  cases rest with
  | nil => rfl
  | cons b r =>
    simp only [sortedByTimestamp, Bool.and_eq_true] at h
    exact h.2

theorem sortedByTimestamp_append_last (msgs : List Message) (m : Message)
    (h1 : sortedByTimestamp msgs = true)
    (h2 : ∀ x ∈ msgs, x.timestamp ≤ m.timestamp) :
    sortedByTimestamp (msgs ++ [m]) = true := by
  induction msgs with
  | nil => rfl
  | cons a rest ih =>
    cases rest with
    | nil =>
      simp only [List.cons_append, List.nil_append, sortedByTimestamp,
        Bool.and_eq_true, decide_eq_true_eq]
      constructor
      · exact h2 a (by simp)
      · trivial
    | cons b r =>
      simp only [sortedByTimestamp, Bool.and_eq_true] at h1
      have hrest : sortedByTimestamp ((b :: r) ++ [m]) = true :=
        ih h1.2 (fun x hx => h2 x (List.mem_cons_of_mem a hx))
      simp only [List.cons_append] at hrest ⊢
      simp only [sortedByTimestamp, Bool.and_eq_true]
      exact ⟨h1.1, hrest⟩

/-- C4 counterexample: room `r1` is loaded with the (sorted) fetched history
`[mC]` (timestamp 3); the live feed then delivers `mA` (timestamp 1).  The
realtime callback appends at the tail, so the exposed message list is
`[mC, mA]`, which is not sorted ascending by timestamp — no sort happens at
snapshot time. -/
theorem c4_out_of_order_delivery_unsorted :
    sortedByTimestamp [mC] = true ∧
    roomMessages (handleRealtimeInsert (applyFetchResult [roomA] "r1" [mC])
      "r1" mA) "r1" = [mC, mA] ∧
    sortedByTimestamp (roomMessages (handleRealtimeInsert
      (applyFetchResult [roomA] "r1" [mC]) "r1" mA) "r1") = false := by decide

/-- C4 amended: the fetched history is exposed exactly as returned by the
remote query (which orders it ascending by timestamp); a live delivery is
either appended at the tail or ignored as a duplicate, with no re-sort, so
the exposed list stays sorted only when each delivered message's timestamp
is at least every stored one. -/
theorem c4_snapshot_order_amended (sessions : List ChatSession) (rid : String)
    (data : List Message) (msgs : List Message) (m : Message)
    (hroom : sessions.any (fun s => s.id == rid) = true)
    (hsorted : sortedByTimestamp msgs = true)
    (hle : ∀ x ∈ msgs, x.timestamp ≤ m.timestamp) :
    roomMessages (applyFetchResult sessions rid data) rid = data ∧
    ((appendOrMerge msgs m).1 = msgs ++ [m] ∨ (appendOrMerge msgs m).1 = msgs) ∧
    sortedByTimestamp (appendOrMerge msgs m).1 = true := by
  refine ⟨roomMessages_applyFetchResult sessions rid data hroom, ?_, ?_⟩
  · by_cases h : (msgs.any (fun x => x.id == m.id)) = true
    · right
      unfold appendOrMerge
      rw [if_pos h]
    · left
      unfold appendOrMerge
      rw [if_neg h]
  · by_cases h : (msgs.any (fun x => x.id == m.id)) = true
    · unfold appendOrMerge
      rw [if_pos h]
      exact hsorted
    · unfold appendOrMerge
      rw [if_neg h]
      exact sortedByTimestamp_append_last msgs m hsorted hle

/-- Witness for C4's amended theorem: room `r1` with sorted history
`[mA, mB]` and an in-order delivery `mC` stays sorted. -/
theorem c4_snapshot_order_amended_witness :
    roomMessages (applyFetchResult [roomA] "r1" [mA, mB]) "r1" = [mA, mB] ∧
    ((appendOrMerge [mA, mB] mC).1 = [mA, mB] ++ [mC] ∨
      (appendOrMerge [mA, mB] mC).1 = [mA, mB]) ∧
    sortedByTimestamp (appendOrMerge [mA, mB] mC).1 = true :=
  c4_snapshot_order_amended [roomA] "r1" [mA, mB] [mA, mB] mC (by decide)
    (by decide) (by decide)

/-- Application state as held by the component: the session list and the
currently active session id (App.tsx lines 28-29). -/
structure AppState where
  sessions : List ChatSession
  activeSessionId : String
deriving DecidableEq

/-- Application of a history-fetch response at app-state level (App.tsx
lines 41-54): the continuation closes over the `activeSessionId` value
captured when the effect ran — the room the fetch was issued for — and
updates that room's message list; the current active-room state is not
consulted and there is no cancellation of the in-flight request. -/
def applyFetchResultApp (st : AppState) (capturedRoom : String)
    (data : List Message) : AppState :=
  { st with sessions := applyFetchResult st.sessions capturedRoom data }

/-- Concrete app state for the C5 counterexample: the fetch was issued for
room `r1`, but by the time the response arrives the user has switched to
room `r2`. -/
def stC5 : AppState := ⟨[roomA, roomB], "r2"⟩

/-- C5 counterexample: a late-arriving history response for the deactivated
room `r1` IS applied — `r1` is not the active room of `stC5`, yet its
message list changes from `[]` to the fetched data.  There is no
still-active guard in the fetch continuation. -/
theorem c5_late_history_applied_to_inactive_room :
    stC5.activeSessionId ≠ "r1" ∧
    roomMessages stC5.sessions "r1" = [] ∧
    roomMessages ((applyFetchResultApp stC5 "r1" [mA]).sessions) "r1" =
      [mA] := by decide

/-- C5 amended: the fetch continuation applies the response to the room it
was fetched for (the captured room id), entirely independently of the
currently active room: the result does not depend on `activeSessionId`,
rooms other than the captured one are untouched, and the captured room's
list becomes exactly the fetched data. -/
theorem c5_fetch_application_ignores_active_room (st : AppState)
    (capturedRoom : String) (data : List Message) (a : String) :
    (applyFetchResultApp { sessions := st.sessions, activeSessionId := a }
      capturedRoom data).sessions =
      (applyFetchResultApp st capturedRoom data).sessions ∧
    (∀ s ∈ st.sessions, (s.id == capturedRoom) = false →
      s ∈ (applyFetchResultApp st capturedRoom data).sessions) ∧
    (st.sessions.any (fun s => s.id == capturedRoom) = true →
      roomMessages (applyFetchResultApp st capturedRoom data).sessions
        capturedRoom = data) := by
  refine ⟨rfl, ?_, ?_⟩
  · intro s hs hid
    have hfs : (if s.id == capturedRoom then { s with messages := data }
        else s) = s := by
      rw [if_neg]
      simp [hid]
    exact List.mem_map.mpr ⟨s, hs, hfs⟩
  · intro h
    exact roomMessages_applyFetchResult st.sessions capturedRoom data h

/-- Witness for C5's amended theorem at the concrete state `stC5`. -/
theorem c5_fetch_application_ignores_active_room_witness :
    roomMessages (applyFetchResultApp stC5 "r1" [mA]).sessions "r1" = [mA] :=
  (c5_fetch_application_ignores_active_room stC5 "r1" [mA] "r2").2.2 (by decide)

/-- Error of a failed remote insert, the spec's `WriteError` (the `error`
field returned by the insert at App.tsx line 100). -/
inductive WriteError where
  | writeError
deriving DecidableEq

/-- Error of the generation collaborator, the spec's `GenerationError` (an
exception thrown by `generateResponse`, caught at App.tsx line 126). -/
inductive GenError where
  | genError
deriving DecidableEq

/-- The argument tuple `handleSendMessage` passes to `generateResponse`
(App.tsx lines 110-115): the just-sent text, `activeSession.messages.slice(-5)`
in list order, the session's personality, and the optional image. -/
structure GenRequest where
  text : String
  context : List Message
  personality : String
  image : Option String
deriving DecidableEq

/-- The user message built by `handleSendMessage` (App.tsx lines 88-97). -/
def mkUserMessage (p : UserProfile) (text : String) (image : Option String)
    (messageId : String) (now : Int) (activeId : String) : Message :=
  ⟨messageId, Role.user, text, now, image, none, some p.name, some p.avatar,
    some activeId⟩

/-- Observable result of one run of `handleSendMessage`: the local session
list it leaves behind (the send path contains no `setSessions` call, so the
list is carried through unchanged), the user message handed to the remote
insert (when reached), the generation request made (when reached), and the
agent message handed to the remote insert (when reached). -/
structure SendResult where
  sessions : List ChatSession
  userWrite : Option Message
  generationCalled : Option GenRequest
  botWrite : Option Message
deriving DecidableEq

/-- Shallow embedding of `handleSendMessage` (App.tsx lines 84-129) as a
pure function of the outcomes of its two suspended calls: `writeResult` is
the outcome of the remote insert of the user message (line 100) and
`genResult` the outcome of `generateResponse` (an exception as
`Except.error`, a returned string — possibly empty — as `Except.ok`; an
empty string is replaced by the placeholder text at line 120 via
`responseText || '...'`).  `activeSession` is the session resolved at
render time (App.tsx line 37), `messageId` and `botId` stand for the two
`Math.random` ids, `now` and `botNow` for the two `Date.now()` reads.
With no profile the function returns immediately (line 85); on a write
error it logs and returns (lines 102-105); on a generation error the catch
block logs and swallows (lines 126-128). -/
def handleSendMessage (sessions : List ChatSession)
    (activeSession : ChatSession) (activeId : String)
    (profile : Option UserProfile) (text : String) (image : Option String)
    (messageId : String) (now : Int) (writeResult : Except WriteError Unit)
    (botId : String) (botNow : Int) (genResult : Except GenError String) :
    SendResult :=
  match profile with
  | none => ⟨sessions, none, none, none⟩
  | some p =>
    let userMsg : Message := mkUserMessage p text image messageId now activeId
    match writeResult with
    | Except.error _ => ⟨sessions, some userMsg, none, none⟩
    | Except.ok _ =>
      let req : GenRequest :=
        ⟨text, lastN 5 activeSession.messages, activeSession.personality,
          image⟩
      match genResult with
      | Except.error _ => ⟨sessions, some userMsg, some req, none⟩
      | Except.ok responseText =>
        let botMsg : Message :=
          ⟨botId, Role.model,
            if responseText = "" then "..." else responseText, botNow,
            none, none, none, none, some activeId⟩
        ⟨sessions, some userMsg, some req, some botMsg⟩

/-- Concrete profile used by witnesses and counterexamples. -/
def profileU : UserProfile := ⟨"alice", "avatar-a"⟩

/-- C3 counterexample: when the generation call succeeds with an empty
string, `handleSendMessage` does write an agent message — with the
placeholder text from `responseText || '...'` — so an empty result does not
leave the room with zero agent messages for that turn. -/
theorem c3_empty_result_writes_placeholder :
    (handleSendMessage [roomA] roomA "r1" (some profileU) "hi" none "m1" 10
      (Except.ok ()) "b1" 11 (Except.ok "")).botWrite =
      some ⟨"b1", Role.model, "...", 11, none, none, none, none,
        some "r1"⟩ := by decide

/-- C3 amended: a generation failure (thrown exception) writes zero agent
messages and leaves the local session list untouched; a generation success
always writes exactly one agent message, whose text is the returned string,
or the placeholder text when that string is empty. -/
theorem c3_reply_suppression_amended (sessions : List ChatSession)
    (activeSession : ChatSession) (activeId : String) (p : UserProfile)
    (text : String) (image : Option String) (messageId : String) (now : Int)
    (botId : String) (botNow : Int) :
    (handleSendMessage sessions activeSession activeId (some p) text image
      messageId now (Except.ok ()) botId botNow
      (Except.error GenError.genError)).botWrite = none ∧
    (handleSendMessage sessions activeSession activeId (some p) text image
      messageId now (Except.ok ()) botId botNow
      (Except.error GenError.genError)).sessions = sessions ∧
    (∀ t : String,
      (handleSendMessage sessions activeSession activeId (some p) text image
        messageId now (Except.ok ()) botId botNow (Except.ok t)).botWrite =
        some ⟨botId, Role.model, if t = "" then "..." else t, botNow, none,
          none, none, none, some activeId⟩) := by
  refine ⟨rfl, rfl, ?_⟩
  intro t
  rfl

/-- C6: when the remote insert of the user message fails, the send path
stops: no generation request is made, no agent message is written, and the
local session list is unchanged; the attempted user write is the message
built from the profile and input. -/
theorem c6_write_failure_stops_send_path (sessions : List ChatSession)
    (activeSession : ChatSession) (activeId : String) (p : UserProfile)
    (text : String) (image : Option String) (messageId : String) (now : Int)
    (botId : String) (botNow : Int) (genResult : Except GenError String)
    (e : WriteError) :
    (handleSendMessage sessions activeSession activeId (some p) text image
      messageId now (Except.error e) botId botNow
      genResult).generationCalled = none ∧
    (handleSendMessage sessions activeSession activeId (some p) text image
      messageId now (Except.error e) botId botNow genResult).botWrite =
      none ∧
    (handleSendMessage sessions activeSession activeId (some p) text image
      messageId now (Except.error e) botId botNow genResult).sessions =
      sessions ∧
    (handleSendMessage sessions activeSession activeId (some p) text image
      messageId now (Except.error e) botId botNow genResult).userWrite =
      some (mkUserMessage p text image messageId now activeId) :=
  ⟨rfl, rfl, rfl, rfl⟩

/-- Observable result of one realtime delivery.  The callback body
(App.tsx lines 66-76) consists solely of the `setSessions` merge: it
contains no `generateResponse` call and no remote insert, which the two
constant fields record. -/
structure DeliverResult where
  sessions : List ChatSession
  generationCalled : Option GenRequest
  botWrite : Option Message
deriving DecidableEq

/-- The realtime callback (App.tsx lines 66-76) with its absent effects made
explicit: it only updates the session list. -/
def handleRealtimeInsertFull (sessions : List ChatSession) (activeId : String)
    (m : Message) : DeliverResult :=
  ⟨handleRealtimeInsert sessions activeId m, none, none⟩

/-- C7: a live-feed delivery never invokes the generation collaborator and
never writes an agent message — in any client process, delivering any
message (in particular another client's `m1`) produces no generation
request — while the send path of the originating client does issue exactly
the generation request for its own message once its write succeeded. -/
theorem c7_delivery_never_triggers_generation (sessionsB : List ChatSession)
    (activeIdB : String) (m1 : Message) (sessionsA : List ChatSession)
    (activeSessionA : ChatSession) (activeIdA : String) (p : UserProfile)
    (text : String) (image : Option String) (messageId : String) (now : Int)
    (botId : String) (botNow : Int) (genResult : Except GenError String) :
    (handleRealtimeInsertFull sessionsB activeIdB m1).generationCalled =
      none ∧
    (handleRealtimeInsertFull sessionsB activeIdB m1).botWrite = none ∧
    (handleSendMessage sessionsA activeSessionA activeIdA (some p) text image
      messageId now (Except.ok ()) botId botNow genResult).generationCalled =
      some ⟨text, lastN 5 activeSessionA.messages,
        activeSessionA.personality, image⟩ := by
  refine ⟨rfl, rfl, ?_⟩
  cases genResult <;> rfl

theorem sortedByTimestamp_drop (k : Nat) (msgs : List Message)
    (h : sortedByTimestamp msgs = true) :
    sortedByTimestamp (msgs.drop k) = true := by
  induction k generalizing msgs with
  | zero => exact h
  | succ n ih =>
    cases msgs with
    | nil => rfl
    | cons a rest => exact ih rest (sortedByTimestamp_tail a rest h)

/-- C9 amended: once the user-message write succeeded, the generation
collaborator is called with exactly the just-sent text, the room's
personality string, the optional image, and as context the last five
messages of the room in the room list's own order (`slice(-5)`): a suffix
of the room's list of length `min 5 (length)`, which is oldest-first
whenever the room's list is sorted ascending by timestamp — but only then,
since the slice is not re-sorted. -/
theorem c9_generation_request_shape (sessions : List ChatSession)
    (activeSession : ChatSession) (activeId : String) (p : UserProfile)
    (text : String) (image : Option String) (messageId : String) (now : Int)
    (botId : String) (botNow : Int) (genResult : Except GenError String) :
    (handleSendMessage sessions activeSession activeId (some p) text image
      messageId now (Except.ok ()) botId botNow genResult).generationCalled =
      some ⟨text, lastN 5 activeSession.messages,
        activeSession.personality, image⟩ ∧
    (lastN 5 activeSession.messages).length =
      min 5 activeSession.messages.length ∧
    activeSession.messages.take (activeSession.messages.length - 5) ++
      lastN 5 activeSession.messages = activeSession.messages ∧
    (sortedByTimestamp activeSession.messages = true →
      sortedByTimestamp (lastN 5 activeSession.messages) = true) := by
  refine ⟨?_, ?_, ?_, ?_⟩
  · cases genResult <;> rfl
  · unfold lastN
    rw [List.length_drop]
    omega
  · exact List.take_append_drop _ _
  · intro h
    exact sortedByTimestamp_drop _ _ h

/-- Concrete room with two messages, for the C9 witness. -/
def roomAB : ChatSession := ⟨"r1", "Lounge", "", none, "persona one", [mA, mB]⟩

/-- Witness for C9 at a concrete send from room `roomAB`. -/
theorem c9_generation_request_shape_witness :
    (handleSendMessage [roomAB] roomAB "r1" (some profileU) "hi" none "m1" 10
      (Except.ok ()) "b1" 11 (Except.error GenError.genError)).generationCalled =
      some ⟨"hi", lastN 5 roomAB.messages, roomAB.personality, none⟩ ∧
    sortedByTimestamp (lastN 5 roomAB.messages) = true :=
  ⟨(c9_generation_request_shape [roomAB] roomAB "r1" profileU "hi" none "m1"
      10 "b1" 11 (Except.error GenError.genError)).1,
    (c9_generation_request_shape [roomAB] roomAB "r1" profileU "hi" none "m1"
      10 "b1" 11 (Except.error GenError.genError)).2.2.2 (by decide)⟩

/-- C10: the send path performs no optimistic local append — whatever the
outcomes of the remote write and the generation call, `handleSendMessage`
leaves the local session list unchanged (it contains no `setSessions`
call); the user message it hands to the remote insert becomes visible in
the room only when the live feed delivers its echo, at which point the
realtime merge appends it (its freshly generated id being new to the
room). -/
theorem c10_no_optimistic_local_append (sessions : List ChatSession)
    (activeSession : ChatSession) (activeId : String) (p : UserProfile)
    (text : String) (image : Option String) (messageId : String) (now : Int)
    (writeResult : Except WriteError Unit) (botId : String) (botNow : Int)
    (genResult : Except GenError String) :
    (handleSendMessage sessions activeSession activeId (some p) text image
      messageId now writeResult botId botNow genResult).sessions =
      sessions ∧
    (handleSendMessage sessions activeSession activeId (some p) text image
      messageId now writeResult botId botNow genResult).userWrite =
      some (mkUserMessage p text image messageId now activeId) ∧
    ((∀ x ∈ roomMessages sessions activeId, x.id ≠ messageId) →
      sessions.any (fun s => s.id == activeId) = true →
      mkUserMessage p text image messageId now activeId ∈
        roomMessages (handleRealtimeInsert sessions activeId
          (mkUserMessage p text image messageId now activeId)) activeId) := by
  refine ⟨?_, ?_, ?_⟩
  · cases writeResult with
    | error e => rfl
    | ok u => cases genResult <;> rfl
  · cases writeResult with
    | error e => rfl
    | ok u => cases genResult <;> rfl
  · intro hfresh hany
    rw [roomMessages_handleRealtimeInsert _ _ _ hany,
      appendOrMerge_fresh _ _ hfresh]
    simp

/-- Witness for C10 at a concrete send into the empty room `r1`. -/
theorem c10_no_optimistic_local_append_witness :
    (handleSendMessage [roomA] roomA "r1" (some profileU) "hi" none "m1" 10
      (Except.ok ()) "b1" 11 (Except.ok "ok")).sessions = [roomA] ∧
    mkUserMessage profileU "hi" none "m1" 10 "r1" ∈
      roomMessages (handleRealtimeInsert [roomA] "r1"
        (mkUserMessage profileU "hi" none "m1" 10 "r1")) "r1" :=
  ⟨(c10_no_optimistic_local_append [roomA] roomA "r1" profileU "hi" none "m1"
      10 (Except.ok ()) "b1" 11 (Except.ok "ok")).1,
    (c10_no_optimistic_local_append [roomA] roomA "r1" profileU "hi" none
      "m1" 10 (Except.ok ()) "b1" 11 (Except.ok "ok")).2.2 (by decide)
      (by decide)⟩

/-- One subscription-lifecycle event: opening the channel of a room
(`supabase.channel(...).subscribe()`, App.tsx lines 59-77) or releasing it
(`supabase.removeChannel(channel)`, App.tsx line 80). -/
inductive SubEvent where
  | sub (room : String)
  | unsub (room : String)
deriving DecidableEq

/-- Tail of the subscription trace: with room `r`'s channel currently open,
the events produced by the remaining activations and the final unmount.
This encodes React's effect contract for the `useEffect` with dependency
list `[activeSessionId]` (App.tsx lines 59-82): the cleanup of the previous
run fires before the effect re-runs for the next active room, and once more
at unmount. -/
def effectTraceGo : String → List String → List SubEvent
  | r, [] => [SubEvent.unsub r]
  | r, r2 :: rs => SubEvent.unsub r :: SubEvent.sub r2 :: effectTraceGo r2 rs

/-- Subscription event trace of a component lifetime whose successive
active-room selections are `rs`: each effect run opens exactly one channel
and each cleanup releases the channel its own run opened. -/
def effectTrace : List String → List SubEvent
  | [] => []
  | r :: rs => SubEvent.sub r :: effectTraceGo r rs

/-- Checks a subscription trace against the open-channel state (`none` = no
channel open, `some r` = exactly the channel of room `r` open): a subscribe
is legal only with no channel open, an unsubscribe only for the single open
channel of the same room, and at the end of the trace no channel may remain
open.  A `true` verdict therefore certifies: at most one live subscription
at any point (hence at most one per room), no double release, and no leaked
channel. -/
def subOk : Option String → List SubEvent → Bool
  | none, [] => true
  | some _, [] => false
  | none, SubEvent.sub r :: evs => subOk (some r) evs
  | some _, SubEvent.sub _ :: _ => false
  | none, SubEvent.unsub _ :: _ => false
  | some r, SubEvent.unsub r2 :: evs => (r == r2) && subOk none evs

/-- Number of channel-open events in a trace. -/
def countSubs (evs : List SubEvent) : Nat :=
  evs.countP (fun e =>
    match e with
    | SubEvent.sub _ => true
    | SubEvent.unsub _ => false)

/-- Number of channel-release events in a trace. -/
def countUnsubs (evs : List SubEvent) : Nat :=
  evs.countP (fun e =>
    match e with
    | SubEvent.sub _ => false
    | SubEvent.unsub _ => true)

theorem effectTraceGo_ok (rs : List String) :
    ∀ r, subOk (some r) (effectTraceGo r rs) = true ∧
      countSubs (effectTraceGo r rs) = rs.length ∧
      countUnsubs (effectTraceGo r rs) = rs.length + 1 := by
  induction rs with
  | nil =>
    intro r
    refine ⟨?_, rfl, rfl⟩
    simp [effectTraceGo, subOk]
  | cons r2 rs ih =>
    intro r
    obtain ⟨h1, h2, h3⟩ := ih r2
    refine ⟨?_, ?_, ?_⟩
    · simp [effectTraceGo, subOk, h1]
    · simp only [effectTraceGo, countSubs, List.countP_cons] at h2 ⊢
      simp [h2]
    · simp only [effectTraceGo, countUnsubs, List.countP_cons] at h3 ⊢
      simp [h3]

/-- C8: for every sequence of active-room selections, the subscription
trace produced by the effect lifecycle is well-formed — at every point at
most one channel is open (hence at most one live subscription per room per
client process), every release matches the one open channel of the same
room, nothing is released twice and nothing leaks at unmount — and the
trace contains exactly one subscribe and exactly one release per
activation. -/
theorem c8_single_subscription_lifecycle (rs : List String) :
    subOk none (effectTrace rs) = true ∧
    countSubs (effectTrace rs) = rs.length ∧
    countUnsubs (effectTrace rs) = rs.length := by
  cases rs with
  | nil => exact ⟨rfl, rfl, rfl⟩
  | cons r rs =>
    obtain ⟨h1, h2, h3⟩ := effectTraceGo_ok rs r
    refine ⟨?_, ?_, ?_⟩
    · simp [effectTrace, subOk, h1]
    · simp only [effectTrace, countSubs, List.countP_cons] at h2 ⊢
      simp [h2]
    · simp only [effectTrace, countUnsubs, List.countP_cons] at h3 ⊢
      simp [h3]

/-- Room `r1` after the reachable out-of-order history/live interleaving of
the C4 counterexample: the live-delivered older message `mA` sits after the
newer fetched message `mC`. -/
def roomCA : ChatSession := ⟨"r1", "Lounge", "", none, "persona one", [mC, mA]⟩

/-- C9 counterexample: from the reachable room state `[mC, mA]` (fetched
history `[mC]`, then live delivery of the older `mA`), the next send passes
the context window `[mC, mA]` to the generation collaborator — a newer
message (timestamp 3) before an older one (timestamp 1), so the window is
not in oldest-first order. -/
theorem c9_context_not_oldest_first :
    handleRealtimeInsert (applyFetchResult [roomA] "r1" [mC]) "r1" mA =
      [roomCA] ∧
    (handleSendMessage [roomCA] roomCA "r1" (some profileU) "yo" none "m2" 12
      (Except.ok ()) "b2" 13
      (Except.error GenError.genError)).generationCalled =
      some ⟨"yo", [mC, mA], "persona one", none⟩ ∧
    sortedByTimestamp [mC, mA] = false ∧
    mA.timestamp < mC.timestamp := by decide
